import Mathlib

set_option maxRecDepth 8000

/-
Verification of the response-extraction pipeline and the claim validator of
the databricks-restaurant-manager-app repository.

Texts are modelled as lists of characters (`Str`).  Python string builtins
(`strip`, `split`, `count`, `lower`) are modelled once at top level; the code
of each source module is embedded inside a namespace named after the module.
Numeric data (pandas float64 columns) is modelled with exact rationals.
-/

abbrev Str := List Char

/-- Python whitespace predicate: the characters stripped by str.strip(). -/
def pyWs (c : Char) : Bool :=
  c == ' ' || c == '\t' || c == '\n' || c == '\r' || c == '\x0b' || c == '\x0c'

/-- Python str.strip(): remove leading and trailing whitespace. -/
def strip (s : Str) : Str :=
  ((s.dropWhile pyWs).reverse.dropWhile pyWs).reverse

/-- Python str.strip('|'): remove leading and trailing pipe characters. -/
def stripPipes (s : Str) : Str :=
  ((s.dropWhile (· == '|')).reverse.dropWhile (· == '|')).reverse

/-- Python str.split(sep) for a one-character separator: no collapsing of
empty fields, so splitting the empty string yields one empty field. -/
def splitOnChar (sep : Char) : Str → List Str
  | [] => [[]]
  | c :: rest =>
    let r := splitOnChar sep rest
    if c == sep then
      [] :: r
    else
      match r with
      | [] => [[c]]
      | h :: t => (c :: h) :: t

/-- Python str.count for a single character. -/
def countChar (c : Char) (s : Str) : Nat := s.count c

/-- Case folding used to model re.IGNORECASE on the ASCII texts involved. -/
def lowerStr (s : Str) : Str := s.map Char.toLower

/-- Index of the first occurrence of `pat` as a contiguous sublist of `s`
(the scan order of Python's re over a string), if any. -/
def findPat (pat : Str) : Str → Option Nat
  | [] => if pat.isPrefixOf ([] : Str) then some 0 else none
  | c :: rest =>
    if pat.isPrefixOf (c :: rest) then some 0
    else (findPat pat rest).map (· + 1)

/-- The backtick character, by code point. -/
def bt : Char := Char.ofNat 96

/- ------------------------------------------------------------------ -/
/- Structured tables: the shape of the pandas DataFrames produced by
   extract_data_from_text.                                             -/
/- ------------------------------------------------------------------ -/

/-- A cell of an extracted table: pandas NaN, a numeric value produced by
dtype inference, or a string. -/
inductive Cell where
  | nullCell : Cell
  | numCell : ℚ → Cell
  | strCell : Str → Cell
deriving DecidableEq

/-- An extracted table: ordered column names and ordered rows of cells.
Row labels (the DataFrame index) are not recorded; none of the verified
properties read them. -/
structure Table where
  columns : List Str
  rows : List (List Cell)
deriving DecidableEq

def emptyTable : Table := ⟨[], []⟩

/-- The strings pandas.read_csv converts to NaN by default. -/
def naValues : List Str :=
  (["", "#N/A", "#N/A N/A", "#NA", "-1.#IND", "-1.#QNAN", "-NaN", "-nan",
    "1.#IND", "1.#QNAN", "<NA>", "N/A", "NA", "NULL", "NaN", "None",
    "n/a", "nan", "null"]).map String.toList

/-- Decimal integer literal, optionally negated: the numeric-cell shape the
model's dtype inference recognises. -/
def isIntLit (s : Str) : Bool :=
  match s with
  | '-' :: ds => !ds.isEmpty && ds.all Char.isDigit
  | ds => !ds.isEmpty && ds.all Char.isDigit

def digitsToNat (s : Str) : Nat :=
  s.foldl (fun n c => n * 10 + (c.toNat - ('0').toNat)) 0

def parseInt (s : Str) : Int :=
  match s with
  | '-' :: ds => -(digitsToNat ds : Int)
  | ds => (digitsToNat ds : Int)

/-- Whether a column (one option-cell per data row) is inferred as an integer
column: at least one present value, and every present value an integer
literal. -/
def colIsIntB (col : List (Option Str)) : Bool :=
  col.any Option.isSome &&
    col.all (fun c => match c with | none => true | some s => isIntLit s)

def inferCell (colIsInt : Bool) (c : Option Str) : Cell :=
  match c with
  | none => Cell.nullCell
  | some s => if colIsInt then Cell.numCell ((parseInt s : Int) : ℚ) else Cell.strCell s

/-- Model of pandas.read_csv applied to the per-cell-quoted CSV text the
source builds from the collected table lines.  Because the source wraps every
cell in double quotes, the CSV round trip is the identity on cells free of
the double-quote character, so the model consumes the split cell rows
directly.  Modelled behaviours of the parser: the first data row fixes the
field width; when it is wider than the header the leading extra fields
become row labels (dropped here, labels are not recorded); any later row
wider than that width raises ParserError (`none`); shorter rows are padded
with NaN; fields equal to one of the default NA strings become NaN; a column
whose present values are all integer literals is converted to integers.
Not modelled: pandas renames a repeated header name X to X.1, so the model
keeps header names verbatim only for tables whose header names are
distinct; the claim theorem quantifying over headers therefore carries a
Nodup hypothesis on the header, and the concrete inputs use distinct
names. -/
def readCsv (rows : List (List Str)) : Option Table :=
  match rows with
  | [] => none
  | header :: dataRows =>
    match dataRows with
    | [] => none
    | r1 :: _ =>
      let n := header.length
      let lead := r1.length - n
      let width := n + lead
      if dataRows.all (fun r => r.length ≤ width) then
        let toNa := fun (s : Str) => if s ∈ naValues then none else some s
        let grid := dataRows.map (fun r =>
          ((r.map toNa) ++ List.replicate (width - r.length) none).drop lead)
        let flags := (List.range n).map (fun j =>
          colIsIntB (grid.map (fun r => (r.get? j).join)))
        some ⟨header, grid.map (fun r => (flags.zip r).map (fun p => inferCell p.1 p.2))⟩
      else none

/-- Cleanup pass the source applies after read_csv: str.strip() on column
names and on every cell of every object column. -/
def stripStrCell : Cell → Cell
  | Cell.strCell s => Cell.strCell (strip s)
  | c => c

/- ------------------------------------------------------------------ -/
/- src/backend/genie_client_databricks.py                              -/
/- ------------------------------------------------------------------ -/

namespace genie_client_databricks

/-- Recognizer for the first regex pattern "```sql\s*(.*?)\s*```"
(IGNORECASE, DOTALL): the slice between the first case-insensitive
occurrence of the sql fence opener and the first closing fence after it.
The group's \s* trimming is performed by the caller's final strip, which the
source applies to the group anyway. -/
def sqlFence (text : Str) : Option Str :=
  (findPat ("```sql".toList) (lowerStr text)).bind (fun i =>
    let rest := text.drop (i + 6)
    (findPat ("```".toList) rest).map (fun k => rest.take k))

/-- Match of the pattern "```\s*(SELECT.*?)\s*```" anchored at the start of
`s`: a generic fence whose content begins with SELECT. -/
def genericFenceAt (s : Str) : Option Str :=
  if ("```".toList).isPrefixOf s then
    let afterWs := (s.drop 3).dropWhile pyWs
    if ("select".toList).isPrefixOf (lowerStr afterWs) then
      match findPat ("```".toList) (afterWs.drop 6) with
      | some k => some (afterWs.take (6 + k))
      | none => none
    else none
  else none

/-- Leftmost match of the generic-fence pattern, by scan position. -/
def genericFence : Str → Option Str
  | [] => none
  | c :: rest =>
    match genericFenceAt (c :: rest) with
    | some m => some m
    | none => genericFence rest

/-- End of an inline-statement match starting at the head of `s`: up to and
including the first semicolon, or to the end of the text ($ matches just
before one final newline). -/
def spanEnd (s : Str) : Str :=
  match s.findIdx? (· == ';') with
  | some j => s.take (j + 1)
  | none => if s.getLast? == some '\n' then s.dropLast else s

/-- Leftmost match of the inline pattern "(KW\s+.*?(?:;|$))" (IGNORECASE,
DOTALL) for a lowercase keyword `kw`: the first position carrying the
keyword case-insensitively followed by a whitespace character. -/
def inlineStmt (kw : Str) : Str → Option Str
  | [] => none
  | c :: rest =>
    if kw.isPrefixOf (lowerStr (c :: rest)) &&
        (match (c :: rest).drop kw.length with
         | d :: _ => pyWs d
         | [] => false) then
      some (spanEnd (c :: rest))
    else
      inlineStmt kw rest

/-- Embedding of extract_sql_from_text: try the six regex patterns in the
source's order and return the first pattern's first match, stripped; empty
string when no pattern matches. -/
def extract_sql_from_text (text : Str) : Str :=
  match sqlFence text with
  | some m => strip m
  | none =>
  match genericFence text with
  | some m => strip m
  | none =>
  match inlineStmt ("select".toList) text with
  | some m => strip m
  | none =>
  match inlineStmt ("insert".toList) text with
  | some m => strip m
  | none =>
  match inlineStmt ("update".toList) text with
  | some m => strip m
  | none =>
  match inlineStmt ("delete".toList) text with
  | some m => strip m
  | none => []

/-- Separator-line test: re.match("^[\|\s\-:]+$", line) on an already
stripped line. -/
def isSepLine (s : Str) : Bool :=
  !s.isEmpty && s.all (fun c => c == '|' || pyWs c || c == '-' || c == ':')

/-- The line-collection loop of extract_data_from_text: collect stripped
lines containing at least two pipes, skipping separator lines; once inside a
table, stop at the first blank line or pipe-free line. -/
def collectTableLines : List Str → Bool → List Str
  | [], _ => []
  | l :: ls, inTable =>
    let t := strip l
    if 2 ≤ countChar '|' t then
      if isSepLine t then collectTableLines ls true
      else t :: collectTableLines ls true
    else if inTable && t.isEmpty then []
    else if inTable && countChar '|' t == 0 then []
    else collectTableLines ls inTable

/-- Cell split of one collected line: strip outer pipes, split on pipe, strip
each cell. -/
def rowCells (l : Str) : List Str :=
  (splitOnChar '|' (stripPipes l)).map strip

/-- Embedding of extract_data_from_text: collect the table block, parse it
into a DataFrame-shaped table, and apply the final column-name/cell strip
cleanup; any parse failure yields the empty table. -/
def extract_data_from_text (text : Str) : Table :=
  let tls := collectTableLines (splitOnChar '\n' text) false
  if 2 ≤ tls.length then
    match readCsv (tls.map rowCells) with
    | some t => ⟨t.columns.map strip, t.rows.map (List.map stripStrCell)⟩
    | none => emptyTable
  else emptyTable

/-- Result record of the Genie client: answer text, extracted SQL, extracted
table. -/
structure GenieResult where
  answer : Str
  sql : Str
  df : Table
deriving DecidableEq

/-- Embedding of the response-parsing stage of ask_genie_structured: given
the content string recovered from the agent result (the agent call itself is
I/O and outside the model), return the sentinel result when the content is
empty, otherwise the content with the two extractions applied. -/
def ask_genie_structured_core (content : Str) : GenieResult :=
  if content.isEmpty then
    ⟨"No response from Genie".toList, [], emptyTable⟩
  else
    ⟨content, extract_sql_from_text content, extract_data_from_text content⟩

end genie_client_databricks

/- ------------------------------------------------------------------ -/
/- src/backend/genie_client_local.py: the same helper functions,
   duplicated in the second client module.                             -/
/- ------------------------------------------------------------------ -/

namespace genie_client_local

/-- Recognizer for "```sql\s*(.*?)\s*```", as duplicated in the local client
module. -/
def sqlFence (text : Str) : Option Str :=
  (findPat ("```sql".toList) (lowerStr text)).bind (fun i =>
    let rest := text.drop (i + 6)
    (findPat ("```".toList) rest).map (fun k => rest.take k))

/-- Match of "```\s*(SELECT.*?)\s*```" anchored at the start of `s`. -/
def genericFenceAt (s : Str) : Option Str :=
  if ("```".toList).isPrefixOf s then
    let afterWs := (s.drop 3).dropWhile pyWs
    if ("select".toList).isPrefixOf (lowerStr afterWs) then
      match findPat ("```".toList) (afterWs.drop 6) with
      | some k => some (afterWs.take (6 + k))
      | none => none
    else none
  else none

/-- Leftmost match of the generic-fence pattern. -/
def genericFence : Str → Option Str
  | [] => none
  | c :: rest =>
    match genericFenceAt (c :: rest) with
    | some m => some m
    | none => genericFence rest

/-- End of an inline-statement match starting at the head of `s`. -/
def spanEnd (s : Str) : Str :=
  match s.findIdx? (· == ';') with
  | some j => s.take (j + 1)
  | none => if s.getLast? == some '\n' then s.dropLast else s

/-- Leftmost match of "(KW\s+.*?(?:;|$))" for lowercase keyword `kw`. -/
def inlineStmt (kw : Str) : Str → Option Str
  | [] => none
  | c :: rest =>
    if kw.isPrefixOf (lowerStr (c :: rest)) &&
        (match (c :: rest).drop kw.length with
         | d :: _ => pyWs d
         | [] => false) then
      some (spanEnd (c :: rest))
    else
      inlineStmt kw rest

/-- Embedding of the local module's extract_sql_from_text. -/
def extract_sql_from_text (text : Str) : Str :=
  match sqlFence text with
  | some m => strip m
  | none =>
  match genericFence text with
  | some m => strip m
  | none =>
  match inlineStmt ("select".toList) text with
  | some m => strip m
  | none =>
  match inlineStmt ("insert".toList) text with
  | some m => strip m
  | none =>
  match inlineStmt ("update".toList) text with
  | some m => strip m
  | none =>
  match inlineStmt ("delete".toList) text with
  | some m => strip m
  | none => []

/-- Separator-line test of the local module. -/
def isSepLine (s : Str) : Bool :=
  !s.isEmpty && s.all (fun c => c == '|' || pyWs c || c == '-' || c == ':')

/-- Line-collection loop of the local module's extract_data_from_text. -/
def collectTableLines : List Str → Bool → List Str
  | [], _ => []
  | l :: ls, inTable =>
    let t := strip l
    if 2 ≤ countChar '|' t then
      if isSepLine t then collectTableLines ls true
      else t :: collectTableLines ls true
    else if inTable && t.isEmpty then []
    else if inTable && countChar '|' t == 0 then []
    else collectTableLines ls inTable

/-- Cell split of one collected line, local module. -/
def rowCells (l : Str) : List Str :=
  (splitOnChar '|' (stripPipes l)).map strip

/-- Embedding of the local module's extract_data_from_text. -/
def extract_data_from_text (text : Str) : Table :=
  let tls := collectTableLines (splitOnChar '\n' text) false
  if 2 ≤ tls.length then
    match readCsv (tls.map rowCells) with
    | some t => ⟨t.columns.map strip, t.rows.map (List.map stripStrCell)⟩
    | none => emptyTable
  else emptyTable

end genie_client_local

/- ------------------------------------------------------------------ -/
/- src/validate_analysis.py                                            -/
/- ------------------------------------------------------------------ -/

namespace validate_analysis

/-- One row of the P&L fact table loaded from the CSV file (the columns the
validator reads).  `Type` is a reserved word in Lean, so that column is
`typeCol`; LineItem may be missing (NaN), which str.contains treats as a
non-match via na=False.  Numeric columns are modelled with exact rationals. -/
structure PnlRow where
  typeCol : Str
  lineItem : Option Str
  actual : ℚ
  plan : ℚ
deriving DecidableEq

abbrev Df := List PnlRow

/-- pandas Series.str.contains(pat, na=False) for a pattern without regex
metacharacters: substring containment, with NaN counting as False. -/
def containsSub (pat : Str) (s : Option Str) : Bool :=
  match s with
  | none => false
  | some t => (findPat pat t).isSome

/-- The heterogeneous expected_value / actual_value payloads of
ValidationResult: a dict of actual/plan/variance, or one scalar. -/
inductive Expected where
  | dict (a p v : ℚ) : Expected
  | num (v : ℚ) : Expected
deriving DecidableEq

/-- Embedding of the ValidationResult dataclass.  The human-readable notes
string is presentation only and is not modelled. -/
structure ValidationResult where
  claim : Str
  expected_value : Expected
  actual_value : Expected
  variance : ℚ
  is_valid : Bool
deriving DecidableEq

/-- The variance computation used throughout the validator:
((actual - plan) / plan * 100) if plan != 0 else 0. -/
def variancePct (actual plan : ℚ) : ℚ :=
  if plan ≠ 0 then (actual - plan) / plan * 100 else 0

/-- Filter of claim 1: Type == 'Net Sales' and LineItem contains
'Sales_Food'. -/
def foodRows (df : Df) : Df :=
  df.filter (fun r =>
    r.typeCol == "Net Sales".toList && containsSub ("Sales_Food".toList) r.lineItem)

/-- Filter of claim 2: Type == 'Net Sales' and LineItem contains
'Sales_Beverage'. -/
def beverageRows (df : Df) : Df :=
  df.filter (fun r =>
    r.typeCol == "Net Sales".toList && containsSub ("Sales_Beverage".toList) r.lineItem)

/-- Filter of claim 3: Type == 'Net Sales' and LineItem contains
'Sales_Retail'. -/
def retailRows (df : Df) : Df :=
  df.filter (fun r =>
    r.typeCol == "Net Sales".toList && containsSub ("Sales_Retail".toList) r.lineItem)

def foodClaimLabel : Str :=
  "Food Sales: $320,433 actual vs $341,386 plan (-6.1%)".toList

def beverageClaimLabel : Str :=
  "Beverage Sales: $15,826 actual vs $19,442 plan (-18.6%)".toList

def retailClaimLabel : Str :=
  "Retail Sales variance: -30.8%".toList

/-- The ValidationResult appended for the Food Sales claim, built from the
first matching row (`.iloc[0]`). -/
def foodResult (r : PnlRow) : ValidationResult :=
  let actual := r.actual
  let plan := r.plan
  let v := variancePct actual plan
  { claim := foodClaimLabel
    expected_value := Expected.dict 320433 341386 (-6.1)
    actual_value := Expected.dict actual plan v
    variance := |v - (-6.1)|
    is_valid := decide (|actual - 320433| < 1 ∧ |plan - 341386| < 1) }

/-- The ValidationResult appended for the Beverage Sales claim. -/
def beverageResult (r : PnlRow) : ValidationResult :=
  let actual := r.actual
  let plan := r.plan
  let v := variancePct actual plan
  { claim := beverageClaimLabel
    expected_value := Expected.dict 15826 19442 (-18.6)
    actual_value := Expected.dict actual plan v
    variance := |v - (-18.6)|
    is_valid := decide (|actual - 15826| < 1 ∧ |plan - 19442| < 1) }

/-- The ValidationResult appended for the Retail Sales variance claim; its
expected and actual payloads are scalar variances. -/
def retailResult (r : PnlRow) : ValidationResult :=
  let actual := r.actual
  let plan := r.plan
  let v := variancePct actual plan
  { claim := retailClaimLabel
    expected_value := Expected.num (-30.8)
    actual_value := Expected.num v
    variance := |v - (-30.8)|
    is_valid := decide (|v - (-30.8)| < 1) }

/-- Embedding of PandaAnalysisValidator.validate_revenue_claims: each of the
three claim blocks appends one result built from the first matching row, and
appends nothing when its filter matches no row. -/
def validate_revenue_claims (df : Df) : List ValidationResult :=
  (match foodRows df with
   | [] => []
   | r :: _ => [foodResult r]) ++
  (match beverageRows df with
   | [] => []
   | r :: _ => [beverageResult r]) ++
  (match retailRows df with
   | [] => []
   | r :: _ => [retailResult r])

/-- One entry of the financial_claims list driving
validate_summary_metrics. -/
structure SummaryClaim where
  metric : Str
  type_filter : Str
  line_item_filter : Option Str
  eA : ℚ
  eP : ℚ
  eV : ℚ
deriving DecidableEq

def financial_claims : List SummaryClaim :=
  [⟨"Food Sales".toList, "Net Sales".toList, some ("Sales_Food".toList),
      320433, 341386, -6.1⟩,
   ⟨"Beverage Sales".toList, "Net Sales".toList, some ("Sales_Beverage".toList),
      15826, 19442, -18.6⟩,
   ⟨"Controllable Profit".toList, "Controllable Profit".toList, none,
      539814, 577730, -6.6⟩]

/-- Row filter of one summary claim: Type equality, plus LineItem substring
containment when a line-item filter is present. -/
def summaryRows (df : Df) (c : SummaryClaim) : Df :=
  match c.line_item_filter with
  | some f => df.filter (fun r => r.typeCol == c.type_filter && containsSub f r.lineItem)
  | none => df.filter (fun r => r.typeCol == c.type_filter)

/-- The result built for one summary claim from the first matching row: the
variance is computed from the raw values, negative actuals are then
sign-normalised together with the plan, and validity checks all three
comparisons (tolerance 1 on the dollar values, 0.5 on the variance). -/
def summaryResult (c : SummaryClaim) (r : PnlRow) : ValidationResult :=
  let actual0 := r.actual
  let plan0 := r.plan
  let v := variancePct actual0 plan0
  let actual := if actual0 < 0 then |actual0| else actual0
  let plan := if actual0 < 0 then |plan0| else plan0
  { claim := c.metric ++ (" summary metrics".toList)
    expected_value := Expected.dict c.eA c.eP c.eV
    actual_value := Expected.dict actual plan v
    variance := |v - c.eV|
    is_valid := decide (|actual - c.eA| < 1 ∧ |plan - c.eP| < 1 ∧ |v - c.eV| < 0.5) }

/-- Embedding of PandaAnalysisValidator.validate_summary_metrics. -/
def validate_summary_metrics (df : Df) : List ValidationResult :=
  financial_claims.filterMap (fun c =>
    match summaryRows df c with
    | [] => none
    | r :: _ => some (summaryResult c r))

end validate_analysis

/- ------------------------------------------------------------------ -/
/- Rendered-table fixtures used to state the general table-extraction
   properties, plus concrete fact tables used by the witnesses and
   counterexamples.                                                    -/
/- ------------------------------------------------------------------ -/

/-- Strings excluded from the clean-cell predicate: the default NA strings
plus the boolean- and infinity-like strings on which pandas dtype inference
behaves specially (the model keeps them out of scope rather than modelling
those conversions). -/
def specialCellStrings : List Str :=
  naValues ++ (["True", "TRUE", "true", "False", "FALSE", "false",
    "inf", "Inf", "INF", "Infinity", "infinity"].map String.toList)

/-- A clean cell: nonempty, purely alphabetic, and none of the special
strings.  Such cells survive the whole pipeline verbatim. -/
def cleanCellB (s : Str) : Bool :=
  !s.isEmpty && s.all Char.isAlpha && !(specialCellStrings.contains s)

/-- The pipe-prefixed concatenation of a row's cells, without the closing
pipe. -/
def innerRow (cs : List Str) : Str := (cs.map (fun c => '|' :: c)).flatten

/-- A markdown table row rendered with leading and trailing pipes. -/
def renderRow (cs : List Str) : Str := innerRow cs ++ ['|']

/-- A three-line markdown table text: header row, separator line, one data
row. -/
def mkTableText (hs cs : List Str) : Str :=
  renderRow hs ++ '\n' :: ("|---|".toList ++ '\n' :: renderRow cs)

def dfC1 : validate_analysis.Df :=
  [⟨"Labor".toList, some ("Wages".toList), 5, 5⟩]

def rowC1b : validate_analysis.PnlRow :=
  ⟨"Net Sales".toList, some ("Sales_Beverage_Juice".toList), 7, 9⟩

def dfC1b : validate_analysis.Df := [rowC1b]

def rowC2a : validate_analysis.PnlRow :=
  ⟨"Net Sales".toList, some ("Sales_Food_A".toList), 100, 200⟩

def rowC2b : validate_analysis.PnlRow :=
  ⟨"Net Sales".toList, some ("Sales_Food_B".toList), 50, 60⟩

def dfC2 : validate_analysis.Df := [rowC2a, rowC2b]

def rowC7 : validate_analysis.PnlRow :=
  ⟨"Net Sales".toList, some ("Sales_Food_X".toList), 42, 0⟩

def dfC7 : validate_analysis.Df := [rowC7]

/- ------------------------------------------------------------------ -/
/- Helper lemmas and claim theorems                                    -/
/- ------------------------------------------------------------------ -/

theorem toNat_ofNat_valid {n : Nat} (h : n.isValidChar) : (Char.ofNat n).toNat = n := by
  rw [Char.ofNat, dif_pos h]
  rfl

theorem toLower_ne_bt {x : Char} (h : x ≠ bt) : Char.toLower x ≠ bt := by
  unfold Char.toLower
  simp only []
  by_cases hin : x.toNat ≥ 65 ∧ x.toNat ≤ 90
  · rw [if_pos hin]
    intro heq
    have h2 : (Char.ofNat (x.toNat + 32)).toNat = x.toNat + 32 :=
      toNat_ofNat_valid (Or.inl (by omega))
    rw [heq] at h2
    have h3 : bt.toNat = 96 := by decide
    omega
  · rw [if_neg hin]
    exact h

theorem lowerStr_append (u v : Str) : lowerStr (u ++ v) = lowerStr u ++ lowerStr v :=
  List.map_append Char.toLower u v

theorem mem_lowerStr_ne_bt {u : Str} (h : ∀ ch ∈ u, ch ≠ bt) :
    ∀ ch ∈ lowerStr u, ch ≠ bt := by
  intro ch hch
  rcases List.mem_map.mp hch with ⟨x, hx, rfl⟩
  exact toLower_ne_bt (h x hx)

theorem isPrefixOf_append_self (u v : Str) : u.isPrefixOf (u ++ v) = true := by
  induction u with
  | nil => simp [List.isPrefixOf]
  | cons c cs ih => simp [List.isPrefixOf, ih]

theorem isPrefixOf_cons_ne {p c : Char} {ps l : Str} (h : c ≠ p) :
    (p :: ps).isPrefixOf (c :: l) = false := by
  have hb : (p == c) = false := beq_eq_false_iff_ne.mpr (fun e => h e.symm)
  simp [List.isPrefixOf, hb]

theorem findPat_prefix (pat rest : Str) : findPat pat (pat ++ rest) = some 0 := by
  cases pat with
  | nil =>
    cases rest with
    | nil => rfl
    | cons c t => simp [findPat, List.isPrefixOf]
  | cons p ps =>
    simp [findPat, isPrefixOf_append_self]

theorem findPat_none_of_notin {p : Char} (ps : Str) {l : Str}
    (h : ∀ ch ∈ l, ch ≠ p) : findPat (p :: ps) l = none := by
  induction l with
  | nil => rfl
  | cons c t ih =>
    have hc : c ≠ p := h c (by simp)
    rw [findPat, isPrefixOf_cons_ne hc]
    simp only [if_false, Bool.false_eq_true]
    rw [ih (fun ch hch => h ch (by simp [hch]))]
    rfl

theorem findPat_append_of_notin {p : Char} (ps : Str) {u : Str} (v : Str)
    (h : ∀ ch ∈ u, ch ≠ p) :
    findPat (p :: ps) (u ++ v) = (findPat (p :: ps) v).map (· + u.length) := by
  induction u with
  | nil =>
    cases hv : findPat (p :: ps) v <;> simp [hv]
  | cons c cs ih =>
    have hc : c ≠ p := h c (by simp)
    rw [List.cons_append, findPat, isPrefixOf_cons_ne hc]
    simp only [if_false, Bool.false_eq_true]
    rw [ih (fun ch hch => h ch (by simp [hch]))]
    cases hv : findPat (p :: ps) v <;> simp [Nat.add_assoc]


/-- Claim C8: for any text containing a well-delimited sql-tagged fence,
extract_sql_from_text returns exactly that fence's inner content trimmed,
regardless of what precedes or follows the fence (the sql fence has
precedence over generic fences and inline statements, which may occur in
the surrounding text). -/
theorem C8_sql_fence_precedence (a b c : Str)
    (ha : ∀ ch ∈ a, ch ≠ bt) (hb : ∀ ch ∈ b, ch ≠ bt) :
    genie_client_databricks.extract_sql_from_text
        (a ++ "```sql".toList ++ b ++ "```".toList ++ c) = strip b := by
  have hlit : lowerStr ("```sql".toList) = "```sql".toList := by decide
  have hbt6 : ("```sql".toList) = bt :: "``sql".toList := by decide
  have hbt3 : ("```".toList) = bt :: "``".toList := by decide
  have hfind1 : findPat ("```sql".toList)
      (lowerStr (a ++ "```sql".toList ++ b ++ "```".toList ++ c)) = some a.length := by
    have : lowerStr (a ++ "```sql".toList ++ b ++ "```".toList ++ c)
        = lowerStr a ++ ("```sql".toList ++ lowerStr (b ++ "```".toList ++ c)) := by
      simp only [List.append_assoc, lowerStr_append, hlit]
    rw [this, hbt6, findPat_append_of_notin _ _ (mem_lowerStr_ne_bt ha), ← hbt6,
      findPat_prefix]
    simp [lowerStr]
  have hdrop : (a ++ "```sql".toList ++ b ++ "```".toList ++ c).drop (a.length + 6)
      = b ++ "```".toList ++ c := by
    have : a ++ "```sql".toList ++ b ++ "```".toList ++ c
        = (a ++ "```sql".toList) ++ (b ++ "```".toList ++ c) := by
      simp [List.append_assoc]
    rw [this, List.drop_left' (by simp)]
  have hfind2 : findPat ("```".toList) (b ++ ("```".toList ++ c)) = some b.length := by
    rw [hbt3, findPat_append_of_notin _ _ hb, ← hbt3, findPat_prefix]
    simp
  have hfence : genie_client_databricks.sqlFence
      (a ++ "```sql".toList ++ b ++ "```".toList ++ c) = some b := by
    unfold genie_client_databricks.sqlFence
    rw [hfind1, Option.some_bind]
    simp only []
    rw [hdrop, List.append_assoc, hfind2]
    simp only [Option.map_some']
    exact congrArg some (List.take_left' rfl)
  unfold genie_client_databricks.extract_sql_from_text
  rw [hfence]

theorem char_eq_of_toNat_eq {x y : Char} (h : x.toNat = y.toNat) : x = y :=
  Char.eq_of_val_eq (UInt32.toNat.inj h)

theorem toLower_ne_s {x : Char} (h1 : x ≠ 's') (h2 : x ≠ 'S') :
    Char.toLower x ≠ 's' := by
  unfold Char.toLower
  simp only []
  by_cases hin : x.toNat ≥ 65 ∧ x.toNat ≤ 90
  · rw [if_pos hin]
    intro heq
    have hv : (Char.ofNat (x.toNat + 32)).toNat = x.toNat + 32 :=
      toNat_ofNat_valid (Or.inl (by omega))
    rw [heq] at hv
    have hs115 : ('s' : Char).toNat = 115 := by decide
    rw [hs115] at hv
    have hx : x.toNat = 83 := by omega
    exact h2 (char_eq_of_toNat_eq (by rw [hx]; decide))
  · rw [if_neg hin]
    exact h1

theorem sqlFence_none_of_no_bt {t : Str} (h : ∀ ch ∈ t, ch ≠ bt) :
    genie_client_databricks.sqlFence t = none := by
  unfold genie_client_databricks.sqlFence
  rw [show ("```sql".toList) = bt :: "``sql".toList from by decide,
    findPat_none_of_notin _ (mem_lowerStr_ne_bt h)]
  rfl

theorem genericFence_none_of_no_bt {t : Str} (h : ∀ ch ∈ t, ch ≠ bt) :
    genie_client_databricks.genericFence t = none := by
  induction t with
  | nil => rfl
  | cons c rest ih =>
    have hc : c ≠ bt := h c (by simp)
    have hAt : genie_client_databricks.genericFenceAt (c :: rest) = none := by
      unfold genie_client_databricks.genericFenceAt
      rw [show ("```".toList) = bt :: "``".toList from by decide,
        isPrefixOf_cons_ne hc]
      simp
    simp only [genie_client_databricks.genericFence, hAt]
    exact ih (fun ch hch => h ch (by simp [hch]))

theorem inlineStmt_select_append {u : Str} (v : Str)
    (hu : ∀ ch ∈ u, ch ≠ 's' ∧ ch ≠ 'S') :
    genie_client_databricks.inlineStmt ("select".toList) (u ++ v) =
      genie_client_databricks.inlineStmt ("select".toList) v := by
  induction u with
  | nil => rfl
  | cons c cs ih =>
    have hc := hu c (by simp)
    have hlow : Char.toLower c ≠ 's' := toLower_ne_s hc.1 hc.2
    have hpre : ("select".toList).isPrefixOf (lowerStr (c :: (cs ++ v))) = false := by
      rw [show ("select".toList) = 's' :: "elect".toList from by decide,
        show lowerStr (c :: (cs ++ v)) = Char.toLower c :: lowerStr (cs ++ v) from rfl]
      exact isPrefixOf_cons_ne (fun e => hlow e)
    rw [List.cons_append]
    simp only [genie_client_databricks.inlineStmt, hpre, Bool.false_and,
      Bool.false_eq_true, if_false]
    exact ih (fun ch hch => hu ch (by simp [hch]))

theorem inlineStmt_cons (kw : Str) (c : Char) (rest : Str) :
    genie_client_databricks.inlineStmt kw (c :: rest) =
      if kw.isPrefixOf (lowerStr (c :: rest)) &&
          (match (c :: rest).drop kw.length with
           | d :: _ => pyWs d
           | [] => false) then
        some (genie_client_databricks.spanEnd (c :: rest))
      else genie_client_databricks.inlineStmt kw rest := rfl

theorem inlineStmt_select_at (s : Str) :
    genie_client_databricks.inlineStmt ("select".toList) ("SELECT ".toList ++ s) =
      some (genie_client_databricks.spanEnd ("SELECT ".toList ++ s)) := by
  have h1 : ("select".toList).isPrefixOf (lowerStr ("SELECT ".toList ++ s)) = true := by
    rw [lowerStr_append,
      show lowerStr ("SELECT ".toList) = "select".toList ++ [' '] from by decide,
      List.append_assoc]
    exact isPrefixOf_append_self _ _
  have h2 : ("SELECT ".toList ++ s).drop (("select".toList).length) = ' ' :: s := by
    rw [show ("SELECT ".toList) = "SELECT".toList ++ [' '] from by decide,
      List.append_assoc]
    rw [List.drop_left' (by decide)]
    rfl
  have hrw : "SELECT ".toList ++ s = 'S' :: ("ELECT ".toList ++ s) := rfl
  rw [hrw, inlineStmt_cons, ← hrw, h1, h2]
  simp
  intro hfalse
  exact absurd hfalse (by decide)

/-- Claim C5 (amended): the extractor tries the patterns in a fixed order
(sql fence, generic fence, inline SELECT, INSERT, UPDATE, DELETE) and
returns the first match of the earliest succeeding pattern, so an inline
SELECT is returned even when a statement with another keyword occurs
earlier in the text. -/
theorem C5_keyword_priority (u s : Str)
    (hu1 : ∀ ch ∈ u, ch ≠ bt) (hu2 : ∀ ch ∈ u, ch ≠ 's' ∧ ch ≠ 'S')
    (hs : ∀ ch ∈ s, ch ≠ bt) :
    genie_client_databricks.extract_sql_from_text (u ++ "SELECT ".toList ++ s) =
      strip (genie_client_databricks.spanEnd ("SELECT ".toList ++ s)) := by
  have hball : ∀ ch ∈ u ++ "SELECT ".toList ++ s, ch ≠ bt := by
    intro ch hch
    rcases List.mem_append.mp hch with h | h
    · rcases List.mem_append.mp h with h1 | h1
      · exact hu1 ch h1
      · intro heq
        subst heq
        exact absurd h1 (by decide)
    · exact hs ch h
  have hf1 := sqlFence_none_of_no_bt hball
  have hf2 := genericFence_none_of_no_bt hball
  have hf3 : genie_client_databricks.inlineStmt ("select".toList)
      (u ++ "SELECT ".toList ++ s) =
      some (genie_client_databricks.spanEnd ("SELECT ".toList ++ s)) := by
    rw [List.append_assoc, inlineStmt_select_append _ hu2, inlineStmt_select_at]
  unfold genie_client_databricks.extract_sql_from_text
  rw [hf1, hf2, hf3]

theorem isAlpha_toNat {c : Char} (h : c.isAlpha = true) :
    (65 ≤ c.toNat ∧ c.toNat ≤ 90) ∨ (97 ≤ c.toNat ∧ c.toNat ≤ 122) := by
  simp only [Char.isAlpha, Char.isUpper, Char.isLower, Bool.or_eq_true,
    Bool.and_eq_true, decide_eq_true_eq] at h
  rcases h with ⟨h1, h2⟩ | ⟨h1, h2⟩
  · exact Or.inl ⟨h1, h2⟩
  · exact Or.inr ⟨h1, h2⟩

theorem isDigit_toNat {c : Char} (h : c.isDigit = true) :
    48 ≤ c.toNat ∧ c.toNat ≤ 57 := by
  simp only [Char.isDigit, Bool.and_eq_true, decide_eq_true_eq] at h
  exact ⟨h.1, h.2⟩

theorem isDigit_false_of_isAlpha {c : Char} (h : c.isAlpha = true) :
    c.isDigit = false := by
  by_cases hd : c.isDigit = true
  · rcases isAlpha_toNat h with ⟨a, b⟩ | ⟨a, b⟩ <;>
      rcases isDigit_toNat hd with ⟨d1, d2⟩ <;> omega
  · exact Bool.not_eq_true _ |>.mp hd

theorem alpha_ne_of_not_alpha {c d : Char} (h : c.isAlpha = true)
    (hd : d.isAlpha = false) : c ≠ d := by
  intro e
  rw [e, hd] at h
  exact Bool.false_ne_true h

theorem pyWs_false_of_alpha {c : Char} (h : c.isAlpha = true) : pyWs c = false := by
  by_cases hw : pyWs c = true
  · exfalso
    simp only [pyWs, Bool.or_eq_true, beq_iff_eq] at hw
    rcases hw with ((((h1 | h1) | h1) | h1) | h1) | h1 <;> subst h1 <;>
      exact absurd h (by decide)
  · exact Bool.not_eq_true _ |>.mp hw

theorem dropWhile_eq_self_of_head {p : Char → Bool} {s : Str}
    (h : ∀ hd, s.head? = some hd → p hd = false) : s.dropWhile p = s := by
  cases s with
  | nil => rfl
  | cons c t =>
    rw [List.dropWhile_cons, h c rfl]
    simp

theorem strip_eq_self {s : Str}
    (hh : ∀ hd, s.head? = some hd → pyWs hd = false)
    (hl : ∀ lt, s.getLast? = some lt → pyWs lt = false) : strip s = s := by
  unfold strip
  rw [dropWhile_eq_self_of_head hh]
  rw [dropWhile_eq_self_of_head (fun hd h2 => hl hd (by rwa [List.head?_reverse] at h2)),
    List.reverse_reverse]

theorem splitOnChar_notin {c : Char} {u : Str} (h : ∀ ch ∈ u, ch ≠ c) :
    splitOnChar c u = [u] := by
  induction u with
  | nil => rfl
  | cons d t ih =>
    have hd : (d == c) = false := beq_eq_false_iff_ne.mpr (h d (by simp))
    rw [splitOnChar, ih (fun ch hch => h ch (by simp [hch]))]
    simp [hd]

theorem splitOnChar_append {c : Char} {u : Str} (v : Str) (h : ∀ ch ∈ u, ch ≠ c) :
    splitOnChar c (u ++ c :: v) = u :: splitOnChar c v := by
  induction u with
  | nil =>
    rw [List.nil_append, splitOnChar]
    simp
  | cons d t ih =>
    have hd : (d == c) = false := beq_eq_false_iff_ne.mpr (h d (by simp))
    rw [List.cons_append, splitOnChar, ih (fun ch hch => h ch (by simp [hch]))]
    simp [hd]

theorem mem_innerRow {ch : Char} {cs : List Str} (h : ch ∈ innerRow cs) :
    ch = '|' ∨ ∃ x ∈ cs, ch ∈ x := by
  unfold innerRow at h
  rcases List.mem_flatten.mp h with ⟨l, hl, hch⟩
  rcases List.mem_map.mp hl with ⟨x, hx, rfl⟩
  rcases List.mem_cons.mp hch with rfl | hy
  · exact Or.inl rfl
  · exact Or.inr ⟨x, hx, hy⟩

theorem mem_renderRow {ch : Char} {cs : List Str} (h : ch ∈ renderRow cs) :
    ch = '|' ∨ ∃ x ∈ cs, ch ∈ x := by
  unfold renderRow at h
  rcases List.mem_append.mp h with h1 | h1
  · exact mem_innerRow h1
  · exact Or.inl (List.mem_singleton.mp h1)

theorem cleanCell_nonempty {s : Str} (h : cleanCellB s = true) : s ≠ [] := by
  unfold cleanCellB at h
  simp only [Bool.and_eq_true, Bool.not_eq_true'] at h
  intro e
  rw [e] at h
  exact absurd h.1.1 (by decide)

theorem cleanCell_alpha {s : Str} (h : cleanCellB s = true) :
    ∀ ch ∈ s, ch.isAlpha = true := by
  unfold cleanCellB at h
  simp only [Bool.and_eq_true, Bool.not_eq_true', List.all_eq_true] at h
  exact h.1.2

theorem renderRow_cons_head (x : Str) (rest : List Str) :
    renderRow (x :: rest) = '|' :: (x ++ (innerRow rest ++ ['|'])) := by
  unfold renderRow innerRow
  simp

theorem head?_renderRow (cs : List Str) (hne : cs ≠ []) :
    (renderRow cs).head? = some '|' := by
  rcases cs with _ | ⟨x, rest⟩
  · exact absurd rfl hne
  · rw [renderRow_cons_head]
    rfl

theorem getLast?_renderRow (cs : List Str) :
    (renderRow cs).getLast? = some '|' := by
  unfold renderRow
  simp

theorem strip_renderRow (cs : List Str) (hne : cs ≠ []) :
    strip (renderRow cs) = renderRow cs := by
  apply strip_eq_self
  · intro hd h2
    rw [head?_renderRow cs hne] at h2
    cases h2
    decide
  · intro lt h2
    rw [getLast?_renderRow] at h2
    cases h2
    decide

theorem countChar_innerRow {cs : List Str}
    (h : ∀ x ∈ cs, ∀ ch ∈ x, ch ≠ '|') :
    countChar '|' (innerRow cs) = cs.length := by
  induction cs with
  | nil => rfl
  | cons x rest ih =>
    have : innerRow (x :: rest) = ('|' :: x) ++ innerRow rest := by
      unfold innerRow
      simp
    rw [this]
    unfold countChar at *
    rw [List.count_append, List.count_cons_self,
      List.count_eq_zero.mpr (fun hx => (h x (by simp) '|' hx) rfl),
      ih (fun y hy ch hch => h y (by simp [hy]) ch hch)]
    simp [Nat.add_comm]

theorem cell_chars_ne_pipe {cs : List Str} (hclean : ∀ x ∈ cs, cleanCellB x = true) :
    ∀ x ∈ cs, ∀ ch ∈ x, ch ≠ '|' :=
  fun x hx ch hch =>
    alpha_ne_of_not_alpha (cleanCell_alpha (hclean x hx) ch hch) (by decide)

theorem countChar_renderRow {cs : List Str}
    (hclean : ∀ x ∈ cs, cleanCellB x = true) :
    countChar '|' (renderRow cs) = cs.length + 1 := by
  unfold renderRow
  unfold countChar
  rw [List.count_append]
  have h1 : countChar '|' (innerRow cs) = cs.length :=
    countChar_innerRow (cell_chars_ne_pipe hclean)
  unfold countChar at h1
  rw [h1]
  rfl

theorem isSepLine_renderRow {cs : List Str} (hne : cs ≠ [])
    (hclean : ∀ x ∈ cs, cleanCellB x = true) :
    genie_client_databricks.isSepLine (renderRow cs) = false := by
  rcases cs with _ | ⟨x, rest⟩
  · exact absurd rfl hne
  have hxc : cleanCellB x = true := hclean x (by simp)
  rcases hx : x with _ | ⟨c0, x'⟩
  · exact absurd hx (cleanCell_nonempty hxc)
  subst hx
  have hal : c0.isAlpha = true := by
    apply cleanCell_alpha hxc
    simp
  have hmem : c0 ∈ renderRow ((c0 :: x') :: rest) := by
    rw [renderRow_cons_head]
    simp
  unfold genie_client_databricks.isSepLine
  have hp : (c0 == '|' || pyWs c0 || c0 == '-' || c0 == ':') = false := by
    rw [pyWs_false_of_alpha hal,
      beq_eq_false_iff_ne.mpr (alpha_ne_of_not_alpha hal (by decide)),
      beq_eq_false_iff_ne.mpr (alpha_ne_of_not_alpha hal (by decide)),
      beq_eq_false_iff_ne.mpr (alpha_ne_of_not_alpha hal (by decide))]
    rfl
  have hall : (renderRow ((c0 :: x') :: rest)).all
      (fun c => c == '|' || pyWs c || c == '-' || c == ':') = false :=
    List.all_eq_false.mpr ⟨c0, hmem, by rw [hp]; exact Bool.false_ne_true⟩
  rw [hall]
  simp

theorem stripPipes_wrap {m : Str}
    (hh : ∀ hd, m.head? = some hd → hd ≠ '|')
    (hl : ∀ lt, m.getLast? = some lt → lt ≠ '|') :
    stripPipes ('|' :: (m ++ ['|'])) = m := by
  rcases hm : m with _ | ⟨c, t⟩
  · decide
  subst hm
  unfold stripPipes
  rw [List.dropWhile_cons]
  simp only [beq_self_eq_true, if_true]
  have hc : (c == '|') = false := beq_eq_false_iff_ne.mpr (hh c rfl)
  rw [List.cons_append, List.dropWhile_cons, hc]
  simp only [Bool.false_eq_true, if_false]
  have hrev : (c :: (t ++ ['|'])).reverse = '|' :: (t.reverse ++ [c]) := by
    simp
  rw [hrev, List.dropWhile_cons]
  simp only [beq_self_eq_true, if_true]
  have h2 : (t.reverse ++ [c]).dropWhile (· == '|') = t.reverse ++ [c] := by
    apply dropWhile_eq_self_of_head
    intro hd h2
    rw [List.head?_append] at h2
    rcases ht : t.reverse.head? with _ | ⟨d⟩
    · rw [ht] at h2
      simp only [Option.none_or, List.head?_cons, Option.some.injEq] at h2
      subst h2
      exact beq_eq_false_iff_ne.mpr (hh c rfl)
    · rw [ht] at h2
      simp only [Option.or_some, Option.some.injEq] at h2
      subst h2
      have htne : t ≠ [] := by
        intro e
        rw [e] at ht
        simp at ht
      have hlast : (c :: t).getLast? = some d := by
        rcases t with _ | ⟨e, t2⟩
        · exact absurd rfl htne
        · rw [List.getLast?_cons_cons, ← List.head?_reverse, ht]
      exact beq_eq_false_iff_ne.mpr (hl d hlast)
  rw [h2]
  simp

theorem getLast?_innerRow_alpha {cs : List Str} (hne : cs ≠ [])
    (hclean : ∀ x ∈ cs, cleanCellB x = true) :
    ∀ lt, (innerRow cs).getLast? = some lt → lt.isAlpha = true := by
  induction cs with
  | nil => exact absurd rfl hne
  | cons x rest ih =>
    intro lt hlt
    rcases rest with _ | ⟨y, rest2⟩
    · have hx1 : innerRow [x] = '|' :: x := by
        unfold innerRow
        simp
      rw [hx1] at hlt
      have hmem : lt ∈ '|' :: x := List.mem_of_getLast?_eq_some hlt
      rcases List.mem_cons.mp hmem with rfl | hmx
      · exfalso
        rcases hx : x with _ | ⟨c, t⟩
        · exact absurd hx (cleanCell_nonempty (hclean x (by simp)))
        · rw [hx] at hlt
          rw [List.getLast?_cons_cons] at hlt
          have := List.mem_of_getLast?_eq_some hlt
          have halpha := cleanCell_alpha (hclean x (by simp)) '|' (by rw [hx]; exact this)
          exact absurd halpha (by decide)
      · exact cleanCell_alpha (hclean x (by simp)) lt hmx
    · have hsplit : innerRow (x :: y :: rest2) = ('|' :: x) ++ innerRow (y :: rest2) := by
        unfold innerRow
        simp
      rw [hsplit, List.getLast?_append] at hlt
      have hne2 : innerRow (y :: rest2) ≠ [] := by
        have : innerRow (y :: rest2) = ('|' :: y) ++ innerRow rest2 := by
          unfold innerRow
          simp
        rw [this]
        simp
      rcases hg : (innerRow (y :: rest2)).getLast? with _ | ⟨d⟩
      · exact absurd (List.getLast?_eq_none_iff.mp hg) hne2
      · rw [hg, Option.or_some] at hlt
        have heq : d = lt := Option.some.inj hlt
        subst heq
        exact ih (by simp) (fun z hz => hclean z (by simp [hz])) d hg

theorem splitOn_cells (x : Str) (rest : List Str)
    (hx : ∀ ch ∈ x, ch ≠ '|') (hrest : ∀ z ∈ rest, ∀ ch ∈ z, ch ≠ '|') :
    splitOnChar '|' (x ++ innerRow rest) = x :: rest := by
  induction rest generalizing x with
  | nil =>
    have : innerRow ([] : List Str) = [] := rfl
    rw [this, List.append_nil]
    exact splitOnChar_notin hx
  | cons y rest2 ih =>
    have hsp : innerRow (y :: rest2) = '|' :: (y ++ innerRow rest2) := by
      unfold innerRow
      simp
    rw [hsp, splitOnChar_append _ hx,
      ih y (fun ch hch => hrest y (by simp) ch hch)
        (fun z hz ch hch => hrest z (by simp [hz]) ch hch)]

theorem strip_clean_cell {s : Str} (h : cleanCellB s = true) : strip s = s := by
  apply strip_eq_self
  · intro hd h2
    exact pyWs_false_of_alpha
      (cleanCell_alpha h hd (by
        rcases s with _ | ⟨c, t⟩
        · simp at h2
        · cases h2
          simp))
  · intro lt h2
    exact pyWs_false_of_alpha (cleanCell_alpha h lt (List.mem_of_getLast?_eq_some h2))

theorem rowCells_renderRow {cs : List Str} (hne : cs ≠ [])
    (hclean : ∀ x ∈ cs, cleanCellB x = true) :
    genie_client_databricks.rowCells (renderRow cs) = cs := by
  rcases cs with _ | ⟨x, rest⟩
  · exact absurd rfl hne
  unfold genie_client_databricks.rowCells
  have hform : renderRow (x :: rest) = '|' :: ((x ++ innerRow rest) ++ ['|']) := by
    rw [renderRow_cons_head]
    simp
  have hxne : x ≠ [] := cleanCell_nonempty (hclean x (by simp))
  have hh : ∀ hd, (x ++ innerRow rest).head? = some hd → hd ≠ '|' := by
    intro hd h2
    rw [List.head?_append] at h2
    rcases hx : x with _ | ⟨c, t⟩
    · exact absurd hx hxne
    · rw [hx] at h2
      simp only [List.head?_cons, Option.or_some, Option.some.injEq] at h2
      subst h2
      exact alpha_ne_of_not_alpha
        (cleanCell_alpha (hclean x (by simp)) c (by rw [hx]; simp)) (by decide)
  have hl : ∀ lt, (x ++ innerRow rest).getLast? = some lt → lt ≠ '|' := by
    intro lt h2
    rw [List.getLast?_append] at h2
    rcases rest with _ | ⟨y, rest2⟩
    · have : innerRow ([] : List Str) = [] := rfl
      rw [this] at h2
      simp only [List.getLast?_nil, Option.none_or] at h2
      exact alpha_ne_of_not_alpha
        (cleanCell_alpha (hclean x (by simp)) lt (List.mem_of_getLast?_eq_some h2))
        (by decide)
    · have hne2 : innerRow (y :: rest2) ≠ [] := by
        have hsp : innerRow (y :: rest2) = '|' :: (y ++ innerRow rest2) := by
          unfold innerRow
          simp
        rw [hsp]
        simp
      rcases hg : (innerRow (y :: rest2)).getLast? with _ | ⟨d⟩
      · exact absurd (List.getLast?_eq_none_iff.mp hg) hne2
      · rw [hg, Option.or_some] at h2
        have heq : d = lt := Option.some.inj h2
        subst heq
        exact alpha_ne_of_not_alpha
          (getLast?_innerRow_alpha (by simp)
            (fun z hz => hclean z (by simp [hz])) d hg)
          (by decide)
  rw [hform, stripPipes_wrap hh hl,
    splitOn_cells x rest
      (fun ch hch => alpha_ne_of_not_alpha
        (cleanCell_alpha (hclean x (by simp)) ch hch) (by decide))
      (fun z hz ch hch => alpha_ne_of_not_alpha
        (cleanCell_alpha (hclean z (by simp [hz])) ch hch) (by decide))]
  have : ∀ z ∈ x :: rest, strip z = z :=
    fun z hz => strip_clean_cell (hclean z hz)
  rw [List.map_congr_left this, List.map_id']

theorem collect_cons_data {l : Str} {ls : List Str} {b : Bool}
    (hstrip : strip l = l) (hcnt : 2 ≤ countChar '|' l)
    (hsep : genie_client_databricks.isSepLine l = false) :
    genie_client_databricks.collectTableLines (l :: ls) b =
      l :: genie_client_databricks.collectTableLines ls true := by
  simp only [genie_client_databricks.collectTableLines, hstrip, hsep, if_pos hcnt]
  simp

theorem collect_cons_sep {l : Str} {ls : List Str} {b : Bool}
    (hstrip : strip l = l) (hcnt : 2 ≤ countChar '|' l)
    (hsep : genie_client_databricks.isSepLine l = true) :
    genie_client_databricks.collectTableLines (l :: ls) b =
      genie_client_databricks.collectTableLines ls true := by
  simp only [genie_client_databricks.collectTableLines, hstrip, hsep, if_pos hcnt]
  simp

theorem collect_mkTable {hs cs : List Str} (hhs : hs ≠ []) (hcs : cs ≠ [])
    (hc1 : ∀ x ∈ hs, cleanCellB x = true) (hc2 : ∀ x ∈ cs, cleanCellB x = true) :
    genie_client_databricks.collectTableLines
      (splitOnChar '\n' (mkTableText hs cs)) false = [renderRow hs, renderRow cs] := by
  have hnl1 : ∀ ch ∈ renderRow hs, ch ≠ '\n' := by
    intro ch hch
    rcases mem_renderRow hch with rfl | ⟨x, hx, hmx⟩
    · decide
    · exact alpha_ne_of_not_alpha (cleanCell_alpha (hc1 x hx) ch hmx) (by decide)
  have hnl3 : ∀ ch ∈ renderRow cs, ch ≠ '\n' := by
    intro ch hch
    rcases mem_renderRow hch with rfl | ⟨x, hx, hmx⟩
    · decide
    · exact alpha_ne_of_not_alpha (cleanCell_alpha (hc2 x hx) ch hmx) (by decide)
  have hsplit : splitOnChar '\n' (mkTableText hs cs)
      = [renderRow hs, "|---|".toList, renderRow cs] := by
    unfold mkTableText
    rw [splitOnChar_append _ hnl1,
      splitOnChar_append _ (by decide : ∀ ch ∈ "|---|".toList, ch ≠ '\n'),
      splitOnChar_notin hnl3]
  have hlen1 : 1 ≤ hs.length := List.length_pos.mpr hhs
  have hlen2 : 1 ≤ cs.length := List.length_pos.mpr hcs
  rw [hsplit,
    collect_cons_data (strip_renderRow hs hhs)
      (by rw [countChar_renderRow hc1]; omega) (isSepLine_renderRow hhs hc1),
    collect_cons_sep (by decide) (by decide) (by decide),
    collect_cons_data (strip_renderRow cs hcs)
      (by rw [countChar_renderRow hc2]; omega) (isSepLine_renderRow hcs hc2)]
  rfl

theorem range_map_get {α β : Type} (l : List α) (G : Option α → β) :
    (List.range l.length).map (fun j => G (l.get? j)) = l.map (fun x => G (some x)) := by
  induction l with
  | nil => rfl
  | cons a t ih =>
    rw [List.length_cons, List.range_succ_eq_map]
    simp only [List.map_cons, List.map_map]
    have hcomp : ((fun j => G ((a :: t).get? j)) ∘ Nat.succ) = fun j => G (t.get? j) := by
      funext j
      rfl
    rw [hcomp, ih]
    rfl

theorem zip_map_self {α β : Type} (f : α → β) (l : List α) :
    (l.map f).zip l = l.map (fun x => (f x, x)) := by
  induction l with
  | nil => rfl
  | cons a t ih => simp [ih]

theorem cleanCell_not_int {s : Str} (h : cleanCellB s = true) : isIntLit s = false := by
  rcases hs : s with _ | ⟨c, t⟩
  · rfl
  subst hs
  have hal : c.isAlpha = true := cleanCell_alpha h c (by simp)
  have hdg : c.isDigit = false := isDigit_false_of_isAlpha hal
  have hne : c ≠ '-' := alpha_ne_of_not_alpha hal (by decide)
  unfold isIntLit
  split
  · rename_i ds heq
    exact absurd (List.head_eq_of_cons_eq heq) hne
  · rw [List.all_cons, hdg]
    simp

theorem cleanCell_not_na {s : Str} (h : cleanCellB s = true) : s ∉ naValues := by
  unfold cleanCellB at h
  simp only [Bool.and_eq_true, Bool.not_eq_true'] at h
  obtain ⟨h1, h2⟩ := h
  intro hmem
  have hc : specialCellStrings.contains s = true :=
    List.elem_iff.mpr (List.mem_append_left _ hmem)
  rw [hc] at h2
  exact absurd h2 (by decide)

theorem map_toNa_clean {cs : List Str} (hclean : ∀ x ∈ cs, cleanCellB x = true) :
    cs.map (fun s => if s ∈ naValues then none else some s) = cs.map some := by
  apply List.map_congr_left
  intro x hx
  rw [if_neg (cleanCell_not_na (hclean x hx))]

theorem inferRow_clean {cs : List Str} (hclean : ∀ x ∈ cs, cleanCellB x = true)
    (k : Nat) :
    ((cs.map some ++ List.replicate k none).map
      (fun c => inferCell (colIsIntB [c]) c)) =
      cs.map Cell.strCell ++ List.replicate k Cell.nullCell := by
  rw [List.map_append, List.map_map, List.map_replicate]
  congr 1
  · apply List.map_congr_left
    intro x hx
    show inferCell (colIsIntB [some x]) (some x) = Cell.strCell x
    have : colIsIntB [some x] = isIntLit x := by
      simp [colIsIntB]
    rw [this, cleanCell_not_int (hclean x hx)]
    rfl

theorem readCsv_single {hs cs : List Str}
    (hclean2 : ∀ x ∈ cs, cleanCellB x = true) :
    readCsv [hs, cs] = some ⟨hs,
      [(cs.drop (cs.length - hs.length)).map Cell.strCell ++
        List.replicate (hs.length - cs.length) Cell.nullCell]⟩ := by
  have hall : ([cs].all fun r => decide (r.length ≤ hs.length + (cs.length - hs.length))) = true := by
    simp
    omega
  simp only [readCsv]
  rw [if_pos hall]
  simp only [List.map_cons, List.map_nil]
  rw [map_toNa_clean hclean2]
  have hrow : (cs.map some ++ List.replicate (hs.length + (cs.length - hs.length) - cs.length) none).drop (cs.length - hs.length)
      = (cs.drop (cs.length - hs.length)).map some ++
        List.replicate (hs.length - cs.length) none := by
    rcases le_or_lt cs.length hs.length with hle | hgt
    · have h0 : cs.length - hs.length = 0 := by omega
      rw [h0]
      simp
    · have hk : hs.length + (cs.length - hs.length) - cs.length = 0 := by omega
      have h2 : hs.length - cs.length = 0 := by omega
      rw [hk, h2]
      simp only [List.replicate_zero, List.append_nil]
      rw [← List.map_drop]
  rw [hrow]
  have hlen : ((cs.drop (cs.length - hs.length)).map some ++
      List.replicate (hs.length - cs.length) (none : Option Str)).length = hs.length := by
    simp
    omega
  have hflags : ((List.range hs.length).map (fun j =>
      colIsIntB [((((cs.drop (cs.length - hs.length)).map some ++
        List.replicate (hs.length - cs.length) none)).get? j).join]))
      = ((cs.drop (cs.length - hs.length)).map some ++
        List.replicate (hs.length - cs.length) none).map (fun c => colIsIntB [c]) := by
    have h1 := range_map_get ((cs.drop (cs.length - hs.length)).map some ++
        List.replicate (hs.length - cs.length) (none : Option Str))
        (fun o => colIsIntB [o.join])
    rw [hlen] at h1
    exact h1
  rw [hflags, zip_map_self, List.map_map]
  have hfin := @inferRow_clean (cs.drop (cs.length - hs.length))
    (fun x hx => hclean2 x (List.mem_of_mem_drop hx)) (hs.length - cs.length)
  rw [show ((fun p => inferCell p.1 p.2) ∘ fun x => ((colIsIntB [x] : Bool), x))
      = (fun c => inferCell (colIsIntB [c]) c) from rfl, hfin]


/-- Claim C3 (amended): for a rendered header/separator/data-row table
whose cells are clean and whose header names are distinct (pandas mangles a
repeated header name X to X.1, a renaming outside this model's scope), a
data row with missing trailing cells is filled with the NaN marker (not the
empty string), and a data row with extra cells has its leading extra cells
consumed as row labels so the remaining cells align right against the
header; the table is returned, not discarded. -/
theorem C3_malformed_row_amended (hs cs : List Str) (hhs : hs ≠ []) (hcs : cs ≠ [])
    (hdup : hs.Nodup)
    (hc1 : ∀ x ∈ hs, cleanCellB x = true) (hc2 : ∀ x ∈ cs, cleanCellB x = true) :
    genie_client_databricks.extract_data_from_text (mkTableText hs cs) =
      ⟨hs, [(cs.drop (cs.length - hs.length)).map Cell.strCell ++
        List.replicate (hs.length - cs.length) Cell.nullCell]⟩ := by
  simp only [genie_client_databricks.extract_data_from_text]
  rw [collect_mkTable hhs hcs hc1 hc2]
  rw [if_pos (by simp)]
  simp only [List.map_cons, List.map_nil]
  rw [rowCells_renderRow hhs hc1, rowCells_renderRow hcs hc2, readCsv_single hc2]
  show (⟨hs.map strip,
      [(cs.drop (cs.length - hs.length)).map Cell.strCell ++
        List.replicate (hs.length - cs.length) Cell.nullCell].map (List.map stripStrCell)⟩ : Table) = _
  have hcols : hs.map strip = hs := by
    rw [List.map_congr_left (fun z hz => strip_clean_cell (hc1 z hz)), List.map_id']
  have hrows : ((cs.drop (cs.length - hs.length)).map Cell.strCell ++
      List.replicate (hs.length - cs.length) Cell.nullCell).map stripStrCell =
      (cs.drop (cs.length - hs.length)).map Cell.strCell ++
      List.replicate (hs.length - cs.length) Cell.nullCell := by
    rw [List.map_append, List.map_map, List.map_replicate]
    congr 1
    exact List.map_congr_left (fun z hz => by
      show Cell.strCell (strip z) = Cell.strCell z
      rw [strip_clean_cell (hc2 z (List.mem_of_mem_drop hz))])
  simp only [List.map_cons, List.map_nil]
  rw [hcols, hrows]

namespace validate_analysis

theorem food_var_bound {a p : ℚ} (hA : |a - 320433| < 1) (hP : |p - 341386| < 1) :
    |variancePct a p - (-6.1)| < 0.5 := by
  rw [abs_lt] at hA hP
  have hp0 : (0:ℚ) < p := by linarith [hP.1]
  unfold variancePct
  rw [if_pos (ne_of_gt hp0)]
  have key : (a - p) / p * 100 - (-6.1) = (100 * a - (93.9) * p) / p := by
    field_simp
    ring
  rw [key, abs_div, abs_of_pos hp0, div_lt_iff₀ hp0, abs_lt]
  constructor <;> nlinarith [hA.1, hA.2, hP.1, hP.2]

theorem beverage_var_bound {a p : ℚ} (hA : |a - 15826| < 1) (hP : |p - 19442| < 1) :
    |variancePct a p - (-18.6)| < 0.5 := by
  rw [abs_lt] at hA hP
  have hp0 : (0:ℚ) < p := by linarith [hP.1]
  unfold variancePct
  rw [if_pos (ne_of_gt hp0)]
  have key : (a - p) / p * 100 - (-18.6) = (100 * a - (81.4) * p) / p := by
    field_simp
    ring
  rw [key, abs_div, abs_of_pos hp0, div_lt_iff₀ hp0, abs_lt]
  constructor <;> nlinarith [hA.1, hA.2, hP.1, hP.2]

/-- Claim C4: in validate_summary_metrics, is_valid holds iff all three
comparisons hold (tolerance 1 on actual and plan, 0.5 on variance); in the
revenue claims, which also supply all three expected values, is_valid is
likewise equivalent to the three-way conjunction with variance tolerance
0.5, because dollar values within tolerance force the variance within
tolerance. -/
theorem C4_isValid_iff_three_comparisons :
    (∀ (c : SummaryClaim) (r : PnlRow),
        (summaryResult c r).is_valid = true ↔
          (|(if r.actual < 0 then |r.actual| else r.actual) - c.eA| < 1 ∧
           |(if r.actual < 0 then |r.plan| else r.plan) - c.eP| < 1 ∧
           |variancePct r.actual r.plan - c.eV| < 0.5))
  ∧ (∀ r : PnlRow,
        (foodResult r).is_valid = true ↔
          (|r.actual - 320433| < 1 ∧ |r.plan - 341386| < 1 ∧
           |variancePct r.actual r.plan - (-6.1)| < 0.5))
  ∧ (∀ r : PnlRow,
        (beverageResult r).is_valid = true ↔
          (|r.actual - 15826| < 1 ∧ |r.plan - 19442| < 1 ∧
           |variancePct r.actual r.plan - (-18.6)| < 0.5)) := by
  refine ⟨fun c r => ?_, fun r => ?_, fun r => ?_⟩
  · show decide (_ ∧ _ ∧ _) = true ↔ _
    rw [decide_eq_true_eq]
  · show decide (_ ∧ _) = true ↔ _
    rw [decide_eq_true_eq]
    constructor
    · intro h
      exact ⟨h.1, h.2, food_var_bound h.1 h.2⟩
    · intro h
      exact ⟨h.1, h.2.1⟩
  · show decide (_ ∧ _) = true ↔ _
    rw [decide_eq_true_eq]
    constructor
    · intro h
      exact ⟨h.1, h.2, beverage_var_bound h.1 h.2⟩
    · intro h
      exact ⟨h.1, h.2.1⟩

/-- Claim C1 (amended): a claim whose filter matches zero rows of the fact
table is skipped entirely by validate_revenue_claims: no ValidationResult
for it appears in the output. -/
theorem C1_zero_match_skipped (df : Df) (h : foodRows df = []) :
    ∀ res ∈ validate_revenue_claims df, res.claim ≠ foodClaimLabel := by
  intro res hres
  unfold validate_revenue_claims at hres
  rw [h, List.nil_append] at hres
  rcases List.mem_append.mp hres with h1 | h1
  · rcases hb : beverageRows df with _ | ⟨rb, rbs⟩
    · rw [hb] at h1
      exact absurd h1 (List.not_mem_nil res)
    · rw [hb] at h1
      have he : res.claim = beverageClaimLabel := by
        rw [List.mem_singleton.mp h1]
        rfl
      rw [he]
      decide
  · rcases hr : retailRows df with _ | ⟨rr, rrs⟩
    · rw [hr] at h1
      exact absurd h1 (List.not_mem_nil res)
    · rw [hr] at h1
      have he : res.claim = retailClaimLabel := by
        rw [List.mem_singleton.mp h1]
        rfl
      rw [he]
      decide

/-- Claim C2 (amended): when the Food Sales filter matches at least one
row, the produced outcome is built from the FIRST matching row's actual and
plan values (additional matching rows are ignored, and multiple matches are
not an error). -/
theorem C2_first_row_used (df : Df) (r : PnlRow) (rest : Df)
    (h : foodRows df = r :: rest) :
    (validate_revenue_claims df).head? = some (foodResult r) ∧
    (foodResult r).actual_value =
      Expected.dict r.actual r.plan (variancePct r.actual r.plan) := by
  constructor
  · unfold validate_revenue_claims
    rw [h]
    rfl
  · rfl

/-- Claim C7: every outcome of validate_revenue_claims reports a variance
computed by variancePct from the matched row's actual and plan, which is 0
when the plan is 0 and (actual - plan) / plan * 100 otherwise. -/
theorem C7_variance_zero_guard (df : Df) (res : ValidationResult)
    (hres : res ∈ validate_revenue_claims df) :
    ∃ a p : ℚ,
      (res.actual_value = Expected.dict a p (variancePct a p) ∨
       res.actual_value = Expected.num (variancePct a p)) ∧
      (p = 0 → variancePct a p = 0) ∧
      (p ≠ 0 → variancePct a p = (a - p) / p * 100) := by
  have hval : ∀ a p : ℚ, (p = 0 → variancePct a p = 0) ∧
      (p ≠ 0 → variancePct a p = (a - p) / p * 100) := by
    intro a p
    constructor
    · intro h0
      unfold variancePct
      rw [if_neg (by simp [h0])]
    · intro hne
      unfold variancePct
      rw [if_pos hne]
  unfold validate_revenue_claims at hres
  rcases List.mem_append.mp hres with h1 | h1
  · rcases List.mem_append.mp h1 with h2 | h2
    · rcases hf : foodRows df with _ | ⟨rf, rfs⟩
      · rw [hf] at h2
        exact absurd h2 (List.not_mem_nil res)
      · rw [hf] at h2
        rw [List.mem_singleton.mp h2]
        exact ⟨rf.actual, rf.plan, Or.inl rfl, hval _ _⟩
    · rcases hb : beverageRows df with _ | ⟨rb, rbs⟩
      · rw [hb] at h2
        exact absurd h2 (List.not_mem_nil res)
      · rw [hb] at h2
        rw [List.mem_singleton.mp h2]
        exact ⟨rb.actual, rb.plan, Or.inl rfl, hval _ _⟩
  · rcases hr : retailRows df with _ | ⟨rr, rrs⟩
    · rw [hr] at h1
      exact absurd h1 (List.not_mem_nil res)
    · rw [hr] at h1
      rw [List.mem_singleton.mp h1]
      exact ⟨rr.actual, rr.plan, Or.inr rfl, hval _ _⟩

end validate_analysis

theorem eq_sqlFence (s : Str) :
    genie_client_local.sqlFence s = genie_client_databricks.sqlFence s := rfl

theorem eq_genericFenceAt (s : Str) :
    genie_client_local.genericFenceAt s = genie_client_databricks.genericFenceAt s := rfl

theorem eq_genericFence (s : Str) :
    genie_client_local.genericFence s = genie_client_databricks.genericFence s := by
  induction s with
  | nil => rfl
  | cons c rest ih =>
    show (match genie_client_local.genericFenceAt (c :: rest) with
      | some m => some m
      | none => genie_client_local.genericFence rest) =
      (match genie_client_databricks.genericFenceAt (c :: rest) with
      | some m => some m
      | none => genie_client_databricks.genericFence rest)
    rw [eq_genericFenceAt, ih]

theorem eq_spanEnd (s : Str) :
    genie_client_local.spanEnd s = genie_client_databricks.spanEnd s := rfl

theorem eq_inlineStmt (kw : Str) (s : Str) :
    genie_client_local.inlineStmt kw s = genie_client_databricks.inlineStmt kw s := by
  induction s with
  | nil => rfl
  | cons c rest ih =>
    show (if kw.isPrefixOf (lowerStr (c :: rest)) &&
          (match (c :: rest).drop kw.length with
           | d :: _ => pyWs d
           | [] => false) then
        some (genie_client_local.spanEnd (c :: rest))
      else genie_client_local.inlineStmt kw rest) = _
    rw [eq_spanEnd, ih]
    rfl

theorem eq_extract_sql (s : Str) :
    genie_client_local.extract_sql_from_text s =
      genie_client_databricks.extract_sql_from_text s := by
  unfold genie_client_local.extract_sql_from_text
    genie_client_databricks.extract_sql_from_text
  rw [eq_sqlFence, eq_genericFence, eq_inlineStmt, eq_inlineStmt, eq_inlineStmt,
    eq_inlineStmt]

theorem eq_collect (s : List Str) (b : Bool) :
    genie_client_local.collectTableLines s b =
      genie_client_databricks.collectTableLines s b := by
  induction s generalizing b with
  | nil => rfl
  | cons l ls ih =>
    show (let t := strip l
      if 2 ≤ countChar '|' t then
        if genie_client_local.isSepLine t then genie_client_local.collectTableLines ls true
        else t :: genie_client_local.collectTableLines ls true
      else if b && t.isEmpty then []
      else if b && countChar '|' t == 0 then []
      else genie_client_local.collectTableLines ls b) = _
    show (if 2 ≤ countChar '|' (strip l) then
        if genie_client_local.isSepLine (strip l) then genie_client_local.collectTableLines ls true
        else strip l :: genie_client_local.collectTableLines ls true
      else if b && (strip l).isEmpty then []
      else if b && countChar '|' (strip l) == 0 then []
      else genie_client_local.collectTableLines ls b) = _
    rw [ih, ih]
    rfl

theorem eq_rowCells (l : Str) :
    genie_client_local.rowCells l = genie_client_databricks.rowCells l := rfl

theorem eq_extract_data (s : Str) :
    genie_client_local.extract_data_from_text s =
      genie_client_databricks.extract_data_from_text s := by
  unfold genie_client_local.extract_data_from_text
    genie_client_databricks.extract_data_from_text
  rw [eq_collect]
  rfl


/- ------------------------------------------------------------------ -/
/- Claim theorems: counterexamples and witnesses                       -/
/- ------------------------------------------------------------------ -/

/-- Claim C1 (counterexample): on a fact table where the Food Sales filter
matches zero rows, validate_revenue_claims produces no outcome at all (the
whole result list is empty), contradicting the claim that a
ValidationOutcome with computed values 0 is still produced. -/
theorem C1_zero_match_counterexample :
    validate_analysis.foodRows dfC1 = [] ∧
    validate_analysis.validate_revenue_claims dfC1 = [] := by
  exact ⟨by decide, by decide⟩

/-- Claim C1 witness: instantiation of the amended claim on a concrete fact
table with no Food Sales rows but one Beverage Sales row. -/
theorem C1_zero_match_skipped_witness :
    validate_analysis.foodRows dfC1b = [] ∧
    (validate_analysis.beverageResult rowC1b).claim ≠
      validate_analysis.foodClaimLabel :=
  ⟨by decide,
   validate_analysis.C1_zero_match_skipped dfC1b (by decide)
     (validate_analysis.beverageResult rowC1b)
     (by
       rw [show validate_analysis.validate_revenue_claims dfC1b =
           [validate_analysis.beverageResult rowC1b] from rfl]
       exact List.mem_singleton.mpr rfl)⟩

/-- Claim C2 (counterexample): with two rows matching the Food Sales
filter, the outcome's computed actual is the first row's value 100, not the
sum 150 over all matching rows. -/
theorem C2_multi_match_counterexample :
    validate_analysis.foodRows dfC2 = [rowC2a, rowC2b] ∧
    (validate_analysis.validate_revenue_claims dfC2).head? =
      some (validate_analysis.foodResult rowC2a) ∧
    (validate_analysis.foodResult rowC2a).actual_value =
      validate_analysis.Expected.dict 100 200 (-50) ∧
    rowC2a.actual + rowC2b.actual = 150 ∧ (100 : ℚ) ≠ 150 := by
  refine ⟨by decide, by rfl, ?_, by norm_num [rowC2a, rowC2b], by norm_num⟩
  show validate_analysis.Expected.dict 100 200
      (validate_analysis.variancePct 100 200) =
    validate_analysis.Expected.dict 100 200 (-50)
  rw [show validate_analysis.variancePct 100 200 = -50 by
    norm_num [validate_analysis.variancePct]]

/-- Claim C2 witness: instantiation of the amended claim at the two-row
fact table. -/
theorem C2_first_row_used_witness :
    (validate_analysis.validate_revenue_claims dfC2).head? =
      some (validate_analysis.foodResult rowC2a) ∧
    (validate_analysis.foodResult rowC2a).actual_value =
      validate_analysis.Expected.dict rowC2a.actual rowC2a.plan
        (validate_analysis.variancePct rowC2a.actual rowC2a.plan) :=
  validate_analysis.C2_first_row_used dfC2 rowC2a [rowC2b] (by decide)

/-- Claim C3 (counterexample): a data row with one more cell than the
header does not get its extra cell ignored; instead the first cell is
consumed as the row label and the remaining cells shift left, so the
extracted row is x, y, z rather than w, x, y. -/
theorem C3_malformed_row_counterexample :
    genie_client_databricks.extract_data_from_text
        ("| A | B | C |\n|---|---|---|\n| w | x | y | z |".toList) =
      ⟨["A".toList, "B".toList, "C".toList],
       [[Cell.strCell ("x".toList), Cell.strCell ("y".toList),
         Cell.strCell ("z".toList)]]⟩ ∧
    [Cell.strCell ("x".toList), Cell.strCell ("y".toList),
        Cell.strCell ("z".toList)] ≠
      [Cell.strCell ("w".toList), Cell.strCell ("x".toList),
        Cell.strCell ("y".toList)] := by
  exact ⟨by decide, by decide⟩

/-- Claim C3 witness: the amended claim instantiated at a two-column header
with a three-cell data row: the first cell is consumed as the label and the
last two cells fill the columns. -/
theorem C3_malformed_row_amended_witness :
    genie_client_databricks.extract_data_from_text
        (mkTableText ["Aa".toList, "Bb".toList]
          ["wx".toList, "yy".toList, "zz".toList]) =
      ⟨["Aa".toList, "Bb".toList],
       [[Cell.strCell ("yy".toList), Cell.strCell ("zz".toList)]]⟩ :=
  (C3_malformed_row_amended ["Aa".toList, "Bb".toList]
      ["wx".toList, "yy".toList, "zz".toList]
      (by decide) (by decide) (by decide) (by decide) (by decide)).trans (by decide)

/-- Claim C5 (counterexample): with an inline UPDATE statement occurring
before an inline SELECT statement and no fences, the extractor returns the
SELECT statement, not the statement that occurs first by scan order. -/
theorem C5_scan_order_counterexample :
    genie_client_databricks.extract_sql_from_text
        ("UPDATE t SET a = 1; SELECT 2;".toList) = "SELECT 2;".toList ∧
    "SELECT 2;".toList ≠ "UPDATE t SET a = 1;".toList := by
  exact ⟨by decide, by decide⟩

/-- Claim C5 witness: the keyword-priority theorem instantiated at a text
whose UPDATE statement precedes the SELECT statement. -/
theorem C5_keyword_priority_witness :
    genie_client_databricks.extract_sql_from_text
        ("UPDATE t; ".toList ++ "SELECT ".toList ++ "2 FROM x; SELECT 3;".toList) =
      strip (genie_client_databricks.spanEnd
        ("SELECT ".toList ++ "2 FROM x; SELECT 3;".toList)) ∧
    strip (genie_client_databricks.spanEnd
        ("SELECT ".toList ++ "2 FROM x; SELECT 3;".toList)) =
      "SELECT 2 FROM x;".toList :=
  ⟨C5_keyword_priority ("UPDATE t; ".toList) ("2 FROM x; SELECT 3;".toList)
      (by decide) (by decide) (by decide), by decide⟩

/-- Claim C6 (counterexample): on the three-line Type/Actual/Plan table the
extractor returns the numbers 100 and 120 for the numeric-looking cells,
not the strings "100" and "120" the claim states. -/
theorem C6_numeric_inference_counterexample :
    genie_client_databricks.extract_data_from_text
        ("| Type | Actual | Plan |\n|------|--------|------|\n| Food | 100 | 120 |".toList) =
      ⟨["Type".toList, "Actual".toList, "Plan".toList],
       [[Cell.strCell ("Food".toList), Cell.numCell 100, Cell.numCell 120]]⟩ ∧
    Cell.numCell 100 ≠ Cell.strCell ("100".toList) := by
  exact ⟨by decide, by decide⟩

/-- Claim C6 (amended): the three-line table yields columns Type, Actual,
Plan and exactly one row holding the string Food and the numbers 100 and
120 (numeric-looking cells are converted to numbers by dtype inference). -/
theorem C6_table_scenario_amended :
    genie_client_databricks.extract_data_from_text
        ("| Type | Actual | Plan |\n|------|--------|------|\n| Food | 100 | 120 |".toList) =
      ⟨["Type".toList, "Actual".toList, "Plan".toList],
       [[Cell.strCell ("Food".toList), Cell.numCell 100, Cell.numCell 120]]⟩ := by
  decide

/-- Claim C7 witness: the variance guard instantiated at a one-row fact
table whose plan value is 0. -/
theorem C7_variance_zero_guard_witness :
    (validate_analysis.foodResult rowC7) ∈
      validate_analysis.validate_revenue_claims dfC7 ∧
    (∃ a p : ℚ,
      ((validate_analysis.foodResult rowC7).actual_value =
          validate_analysis.Expected.dict a p (validate_analysis.variancePct a p) ∨
       (validate_analysis.foodResult rowC7).actual_value =
          validate_analysis.Expected.num (validate_analysis.variancePct a p)) ∧
      (p = 0 → validate_analysis.variancePct a p = 0) ∧
      (p ≠ 0 → validate_analysis.variancePct a p = (a - p) / p * 100)) := by
  have hmem : (validate_analysis.foodResult rowC7) ∈
      validate_analysis.validate_revenue_claims dfC7 := by
    rw [show validate_analysis.validate_revenue_claims dfC7 =
        [validate_analysis.foodResult rowC7] from rfl]
    exact List.mem_singleton.mpr rfl
  exact ⟨hmem, validate_analysis.C7_variance_zero_guard dfC7 _ hmem⟩

/-- Claim C8 witness: the sql-fence theorem instantiated at the spec's
Scenario A text. -/
theorem C8_sql_fence_precedence_witness :
    genie_client_databricks.extract_sql_from_text
        ("Here: ".toList ++ "```sql".toList ++ "\nSELECT 1\n".toList ++
          "```".toList ++ " and that's it".toList) =
      strip ("\nSELECT 1\n".toList) ∧
    strip ("\nSELECT 1\n".toList) = "SELECT 1".toList :=
  ⟨C8_sql_fence_precedence ("Here: ".toList) ("\nSELECT 1\n".toList)
      (" and that's it".toList) (by decide) (by decide), by decide⟩

/-- Claim C9: when the content recovered from the assistant is empty, the
structured result is the fixed sentinel answer with empty sql and empty
table. -/
theorem C9_empty_response_sentinel :
    genie_client_databricks.ask_genie_structured_core [] =
      ⟨"No response from Genie".toList, [], emptyTable⟩ := rfl

/-- Claim C10: the extraction helpers duplicated in the local client module
agree with those of the Databricks client module on every input. -/
theorem C10_clients_equivalent : ∀ s : Str,
    genie_client_local.extract_sql_from_text s =
      genie_client_databricks.extract_sql_from_text s ∧
    genie_client_local.extract_data_from_text s =
      genie_client_databricks.extract_data_from_text s :=
  fun s => ⟨eq_extract_sql s, eq_extract_data s⟩
